import Mathlib

/-!
Verification of the document ingestion platform orchestration fabric.

Shallow embedding of the Python sources:
  document_ingestion_platform/ingest_tools/extraction_manager.py
  document_ingestion_platform/ingest_tools/extraction.py
  document_ingestion_platform/ingest_tools/chunking.py
  document_ingestion_platform/ingest_tools/embedding.py
  document_ingestion_platform/ingest_tools/run_platform.py
  document_ingestion_platform/db/db_handler.py

Pure data transformations are embedded as Lean functions; the stateful
worker bodies are embedded as functions producing explicit effect traces
or explicit state transitions.
-/

namespace DIP

/-! Queue broker model.  A Redis list queue is a Lean list; RPUSH appends
at the tail (the right end), BRPOP removes at the right end, BLPOP
removes at the left end.  The manager pushes with rpush
(extraction_manager.py line 135); every worker loop pops with brpop
(extraction.py line 209, chunking.py line 223, embedding.py line 375). -/

/-- Model of Redis RPUSH: append one item at the tail of the list. -/
def rpush (q : List α) (x : α) : List α := q ++ [x]

/-- Model of Redis BRPOP (the call every worker loop makes): remove the
item at the tail, the same end RPUSH appends to. -/
def brpop (q : List α) : Option (α × List α) :=
  match q.getLast? with
  | none => none
  | some x => some (x, q.dropLast)

/-- Model of Redis BLPOP (the primitive the worker docstrings name):
remove the item at the head, the end opposite to RPUSH. -/
def blpop (q : List α) : Option (α × List α) :=
  match q with
  | [] => none
  | x :: rest => some (x, rest)

/-! Queue names.  REDIS_QUEUE and EMBEDDING_QUEUE come from
config/config.py; EXTRACTION_JOBS is exported by the globals module,
which is not under src/.  Modelled from the spec: section 6 gives the
default extraction queue name. -/

/-- Modelled from the spec: the default name of the extraction jobs
queue (the globals module defining EXTRACTION_JOBS is not in src/). -/
def EXTRACTION_JOBS : String := "extraction_jobs"

/-- Chunk-stage input queue name, default of REDIS_QUEUE in config.py. -/
def REDIS_QUEUE : String := "document_processing_queue"

/-- Embedding queue name, default of EMBEDDING_QUEUE in config.py. -/
def EMBEDDING_QUEUE : String := "embedding_queue"

/-- Modelled from the spec: the master library directory path (the
globals module defining MASTER_LIBRARY is not in src/; only its string
value matters here). -/
def MASTER_LIBRARY : String := "data/master_library"

/-- Processed (staging) directory, default of PROCESSED_DIR in config.py. -/
def PROCESSED_DIR : String := "data/processed"

/-! Python dict model for string-valued metadata dictionaries.  A dict
is an insertion-ordered association list with unique keys; assigning to
an existing key overwrites in place, assigning a new key appends. -/

/-- Metadata dictionaries: insertion-ordered key-value lists. -/
abbrev Dict := List (String × String)

/-- Lookup of a key in a dict (Python d[k] / d.get(k)). -/
def dictLookup (d : Dict) (k : String) : Option String :=
  (d.find? (fun p => p.1 == k)).map (fun p => p.2)

/-- Assignment d[k] = v on a Python dict: overwrite the binding in
place when the key exists (keys are unique in a Python dict), append
otherwise. -/
def dictInsert (d : Dict) (k v : String) : Dict :=
  match d with
  | [] => [(k, v)]
  | p :: rest => if p.1 == k then (k, v) :: rest else p :: dictInsert rest k v

/-- Python dict merge with b winning on key collisions. -/
def dictMerge (a b : Dict) : Dict :=
  b.foldl (fun acc p => dictInsert acc p.1 p.2) a

/-- Membership test k in d on a Python dict. -/
def dictHas (d : Dict) (k : String) : Bool :=
  d.any (fun p => p.1 == k)

/-- Python truthiness of an optional string argument: None and the empty
string are falsy. -/
def pyTruthy : Option String → Bool
  | none => false
  | some s => s != ""

/-! Status store model, from db_handler.py.  The documents table is a
list of records in insertion (rowid) order.  Note the schema in
create_tables (lines 42 to 53): the UNIQUE constraint is on filename,
while filepath carries no constraint. -/

/-- One row of the documents table (db_handler.py create_tables).
Timestamps are opaque strings supplied by the caller as the current
time. -/
structure DocumentRecord where
  filename : String
  filepath : String
  status : String
  trace_id : Option String
  error_message : Option String
  processed_date : Option String
  created_date : String
deriving Repr, DecidableEq

/-- Embedding of add_document (db_handler.py lines 60 to 72): INSERT OR
IGNORE, which is a no-op exactly when the filename UNIQUE constraint is
violated; otherwise a fresh row with null error_message and null
processed_date is appended.  Returns the new table and the boolean
result (always true when no sqlite error occurs). -/
def addDocument (store : List DocumentRecord) (filename filepath status : String)
    (trace_id : Option String) (now : String) : List DocumentRecord × Bool :=
  if store.any (fun r => r.filename == filename) then
    (store, true)
  else
    (store ++ [{ filename := filename, filepath := filepath, status := status,
                 trace_id := trace_id, error_message := none,
                 processed_date := none, created_date := now }], true)

/-- Embedding of update_document_status (db_handler.py lines 74 to 92):
every row whose filepath matches gets the new status and processed_date
set to now; error_message is assigned only when the argument is truthy
(the Python code branches on the truthiness of error_message), otherwise
the stored error_message is left as it was.  Returns true. -/
def updateDocumentStatus (store : List DocumentRecord) (filepath status : String)
    (error_message : Option String) (now : String) : List DocumentRecord × Bool :=
  (store.map (fun r =>
    if r.filepath == filepath then
      if pyTruthy error_message then
        { r with status := status, error_message := error_message,
                 processed_date := some now }
      else
        { r with status := status, processed_date := some now }
    else r), true)

/-- Embedding of get_document_status (db_handler.py lines 94 to 106):
the status of the first row matching the filepath, none when no row
matches. -/
def getDocumentStatus (store : List DocumentRecord) (filepath : String) : Option String :=
  (store.find? (fun r => r.filepath == filepath)).map (fun r => r.status)

/-! Path helpers mirroring os.path.basename and os.path.splitext for the
POSIX paths this platform handles. -/

/-- Model of os.path.basename: the component after the last slash. -/
def basename (p : String) : String :=
  ((p.splitOn "/").getLast?).getD p

/-- Model of os.path.splitext applied to a name without slashes: split
at the last dot, treating a leading dot as part of the root.  Returns
(root, extension without the dot). -/
def stemAndExt (b : String) : String × String :=
  let parts := b.splitOn "."
  match parts with
  | [] => (b, "")
  | [_] => (b, "")
  | _ =>
    let ext := parts.getLast?.getD ""
    let stem := String.intercalate "." parts.dropLast
    if stem = "" then (b, "") else (stem, ext)

/-! Extract worker model, from extraction.py.  The converter invocation
is the fallible external call; its three observable outcomes are a
structured document, a null document, or a raised exception.  Everything
the job handler does to the outside world (status store writes, queue
pushes, lock deletions) is recorded as an ordered effect trace. -/

/-- Converter document model: the string metadata the converter exposes,
plus the two serialized representations the worker exports. -/
structure DoclingDoc where
  meta : Dict
  json_repr : String
  markdown : String
deriving Repr, DecidableEq

/-- Outcome of converter.convert inside process_extraction_job
(extraction.py line 123): a document, no document, or an exception. -/
inductive ConvResult where
  | ok (d : DoclingDoc)
  | noDocument
  | raised (msg : String)
deriving Repr, DecidableEq

/-- Extraction job payload fields read by the extract worker; trace_id
is optional because the worker reads it with a get and the fallback
value unknown. -/
structure ExtractJob where
  trace_id : Option String
  file_path : String
  filename : String
deriving Repr, DecidableEq

/-- Chunk job payload built by the extract worker (extraction.py lines
149 to 159). -/
structure ChunkJob where
  trace_id : String
  file_path : String
  filename : String
  document_json : String
  markdown_output : String
  metadata : Dict
  format : String
  extraction_timestamp : Nat
  worker_id : String
deriving Repr, DecidableEq

/-- Document-metadata keys the worker copies from the converter
(extraction.py lines 87 to 88). -/
def docMetaKeys : List String :=
  ["title", "author", "subject", "keywords", "creator", "producer",
   "creation_date", "modified_date", "language"]

/-- Copy of the listed converter metadata keys into the metadata dict,
one key at a time in list order (the for loop of extract_metadata). -/
def copyDocMetaAux (docMeta : Dict) : List String → Dict → Dict
  | [], m => m
  | k :: ks, m =>
    copyDocMetaAux docMeta ks
      (match dictLookup docMeta k with
       | some v => dictInsert m k v
       | none => m)

/-- Copy of the listed converter metadata keys into the metadata dict
(the for loop of extract_metadata). -/
def copyDocMeta (docMeta : Dict) (m : Dict) : Dict :=
  copyDocMetaAux docMeta docMetaKeys m

/-- Filesystem attributes of extract_metadata (extraction.py lines 71
to 77). -/
def extractMetadataBase (file_path extraction_date : String) (file_size : Nat) : Dict :=
  [("file_path", file_path),
   ("file_name", basename file_path),
   ("file_type", (stemAndExt (basename file_path)).2),
   ("extraction_date", extraction_date),
   ("file_size", toString file_size)]

/-- Trace-id attachment of extract_metadata (extraction.py lines 79 to
81): the trace id is recorded only when truthy. -/
def addTrace (m : Dict) : Option String → Dict
  | some t => if t != "" then dictInsert m "trace_id" t else m
  | none => m

/-- Title fallback of extract_metadata (extraction.py lines 92 to 94):
when the title is absent or empty, the basename without extension. -/
def titleFallback (m : Dict) (file_path : String) : Dict :=
  if (dictLookup m "title").getD "" = "" then
    dictInsert m "title" (stemAndExt (basename file_path)).1
  else m

/-- Embedding of extract_metadata (extraction.py lines 67 to 97): the
filesystem attributes, the trace id when truthy, the copied converter
metadata, and the title fallback to the basename without extension. -/
def extractMetadata (docMeta : Dict) (file_path : String) (trace_id : Option String)
    (extraction_date : String) (file_size : Nat) : Dict :=
  titleFallback
    (copyDocMeta docMeta
      (addTrace (extractMetadataBase file_path extraction_date file_size) trace_id))
    file_path

/-- Observable side effect of the extract worker, in program order. -/
inductive Effect where
  | dbUpdate (filepath status : String) (error_message : Option String)
  | queuePush (queue : String) (payload : ChunkJob)
  | lockDelete (key : String)
deriving Repr, DecidableEq

/-- Chunk job payload assembled on the success path of
process_extraction_job. -/
def buildChunkPayload (job : ExtractJob) (doc : DoclingDoc)
    (extraction_date : String) (file_size : Nat) (wid : String) (ts : Nat) : ChunkJob :=
  { trace_id := job.trace_id.getD "unknown",
    file_path := job.file_path,
    filename := job.filename,
    document_json := doc.json_repr,
    markdown_output := doc.markdown,
    metadata := extractMetadata doc.meta job.file_path job.trace_id extraction_date file_size,
    format := "json",
    extraction_timestamp := ts,
    worker_id := wid }

/-- Embedding of process_extraction_job (extraction.py lines 99 to 195)
as an effect trace.  The status is first set to processing; then, by
converter outcome: on a document, the chunk payload is pushed to
REDIS_QUEUE, the status is set to processed, and the claim lock is
deleted; on a null document, the status is set to error and the handler
returns without touching the lock or the queue; on an exception, the
status is set to error with the exception message and the lock is
deleted. -/
def processExtractionJob (job : ExtractJob) (conv : ConvResult)
    (extraction_date : String) (file_size : Nat) (wid : String) (ts : Nat) :
    List Effect × Bool :=
  let lockKey := "lock:extraction:" ++ job.filename
  match conv with
  | ConvResult.ok doc =>
    ([Effect.dbUpdate job.file_path "processing" none,
      Effect.queuePush REDIS_QUEUE (buildChunkPayload job doc extraction_date file_size wid ts),
      Effect.dbUpdate job.file_path "processed" none,
      Effect.lockDelete lockKey], true)
  | ConvResult.noDocument =>
    ([Effect.dbUpdate job.file_path "processing" none,
      Effect.dbUpdate job.file_path "error"
        (some "Failed to convert document - no document returned")], false)
  | ConvResult.raised msg =>
    ([Effect.dbUpdate job.file_path "processing" none,
      Effect.dbUpdate job.file_path "error" (some ("Exception during processing: " ++ msg)),
      Effect.lockDelete lockKey], false)

/-! Extraction manager model, from extraction_manager.py.  A scan
iteration over one directory entry reads the status store, the lock
namespace, and on a successful claim registers the document and pushes a
job. -/

/-- Lock namespace: keyed entries with the value of the claimer. -/
abbrev Locks := List (String × String)

/-- Embedding of is_file_locked (extraction_manager.py lines 77 to 80). -/
def isFileLocked (locks : Locks) (filename : String) : Bool :=
  locks.any (fun p => p.1 == "lock:extraction:" ++ filename)

/-- Embedding of is_file_processed (extraction_manager.py lines 82 to
85): true exactly when the stored status is processed or processing; a
missing record and every other status, error included, give false. -/
def isFileProcessed (store : List DocumentRecord) (filepath : String) : Bool :=
  match getDocumentStatus store filepath with
  | some s => s == "processed" || s == "processing"
  | none => false

/-- Embedding of claim_file (extraction_manager.py lines 87 to 108):
SET NX on the lock key; none when the key already exists, otherwise the
lock table extended with the new claim. -/
def claimFile (locks : Locks) (filename managerId : String) : Option Locks :=
  let key := "lock:extraction:" ++ filename
  if locks.any (fun p => p.1 == key) then none
  else some (locks ++ [(key, managerId)])

/-- Model of the Python str.endswith test: the suffix characters close
the character sequence of the string. -/
def pyEndsWith (s suffix : String) : Bool :=
  suffix.data.isSuffixOf s.data

/-- State the manager scan reads and writes: the status store, the lock
namespace, and the extraction jobs queue. -/
structure ScanState where
  store : List DocumentRecord
  locks : Locks
  queue : List ExtractJob
deriving Repr, DecidableEq

/-- Embedding of one iteration of the scan loop in scan_master_library
(extraction_manager.py lines 166 to 200) together with
create_extraction_job (lines 110 to 140), for one directory entry:
skip non-pdf names; skip when is_file_processed; skip when locked;
claim, register the document with a fresh trace id, and push the job.
Returns the new state and whether a job was created. -/
def scanFile (st : ScanState) (filename freshTrace managerId now : String) :
    ScanState × Bool :=
  if !(pyEndsWith filename ".pdf") then (st, false)
  else
    let file_path := MASTER_LIBRARY ++ "/" ++ filename
    if isFileProcessed st.store file_path then (st, false)
    else if isFileLocked st.locks filename then (st, false)
    else
      match claimFile st.locks filename managerId with
      | none => (st, false)
      | some locks2 =>
        let store2 := (addDocument st.store filename file_path "queued" (some freshTrace) now).1
        let job : ExtractJob :=
          { trace_id := some freshTrace, file_path := file_path, filename := filename }
        ({ store := store2, locks := locks2, queue := rpush st.queue job }, true)

/-! Chunk worker model, from chunking.py.  Only the metadata plumbing
and the staging artifact layout matter to the claims; the chunker itself
is an external collaborator. -/

/-- Embedding of the metadata handling of chunk_document (chunking.py
lines 76 to 95): when the incoming metadata dict is truthy it is copied
and extended with chunks_count, chunking_timestamp and chunking_time;
otherwise a fallback dict with the file path is built. -/
def chunkProcessedMetadata (metadata : Dict) (file_path : String)
    (chunksCount : Nat) (chunkingTimestamp chunkingTime : String) : Dict :=
  if metadata.isEmpty then
    [("file_path", file_path),
     ("chunks_count", toString chunksCount),
     ("chunking_timestamp", chunkingTimestamp),
     ("chunking_time", chunkingTime)]
  else
    dictInsert (dictInsert (dictInsert metadata
      "chunks_count" (toString chunksCount))
      "chunking_timestamp" chunkingTimestamp)
      "chunking_time" chunkingTime

/-- Staging file path built by save_chunks (chunking.py lines 104 to
106): PROCESSED_DIR slash basename underscore chunks dot json. -/
def stagingPath (file_path : String) : String :=
  PROCESSED_DIR ++ "/" ++ basename file_path ++ "_chunks.json"

/-- Staging artifact written by save_chunks: the chunk records and the
processed metadata. -/
structure StagingFile where
  chunks : List String
  metadata : Dict
deriving Repr, DecidableEq

/-- Embed job payload built by add_to_embedding_queue (chunking.py lines
124 to 132). -/
structure EmbedJob where
  chunks_file : String
  metadata : Dict
deriving Repr, DecidableEq

/-! Embed worker model, from embedding.py.  The model is parameterised
by the per-process Python string hash: CPython salts str hashing with a
per-process secret unless PYTHONHASHSEED is fixed, so each worker
process carries its own hash function. -/

/-- Zero-padding of a natural number below ten million to seven digits,
the Python format 07d. -/
def pad7 (n : Nat) : String :=
  let s := toString n
  String.mk (List.replicate (7 - s.length) (Char.ofNat 48)) ++ s

/-- Document id derivation used by embed_chunks (embedding.py line 129)
and save_to_mongodb (line 196): doc underscore hash of the file path
modulo ten million, zero padded to seven digits.  The pyhash argument is
the per-process Python string hash; Python percent on a positive
modulus is the floor modulus. -/
def deriveDocId (pyhash : String → Int) (path : String) : String :=
  "doc_" ++ pad7 ((pyhash path).fmod 10000000).toNat

/-- Metadata refresh of load_chunks_file (embedding.py lines 171 to
173): the staging file metadata, with the chunks file path added only
when the file_path key is absent. -/
def loadChunksMetadata (fileMeta : Dict) (chunks_file : String) : Dict :=
  if dictHas fileMeta "file_path" then fileMeta
  else dictInsert fileMeta "file_path" chunks_file

/-- Metadata combination of process_embedding_job (embedding.py lines
322 to 329): when both the job metadata and the file metadata are truthy
the job metadata wins key collisions; otherwise whichever is truthy is
taken; then the embedding model name is recorded. -/
def embedCombinedMetadata (fileMeta jobMeta : Dict) (modelName : String) : Dict :=
  let combined :=
    if !jobMeta.isEmpty && !fileMeta.isEmpty then dictMerge fileMeta jobMeta
    else if !jobMeta.isEmpty then jobMeta
    else fileMeta
  dictInsert combined "embedding_model" modelName

/-- Document id resolution of save_to_mongodb (embedding.py lines 192
to 199): the document_id from the metadata when present, otherwise the
hash derivation over the file path, with the fallback path unknown. -/
def saveDocId (pyhash : String → Int) (metadata : Dict) : String :=
  match dictLookup metadata "document_id" with
  | some d => d
  | none => deriveDocId pyhash ((dictLookup metadata "file_path").getD "unknown")

/-- Vector store record keys written by save_to_mongodb (embedding.py
line 224): document id underscore chunk index, for chunk indices zero
up to the chunk count. -/
def saveToMongodbKeys (pyhash : String → Int) (metadata : Dict) (numChunks : Nat) :
    List String :=
  let docId := saveDocId pyhash metadata
  (List.range numChunks).map (fun i => docId ++ "_" ++ toString i)

/-- Per-chunk metadata persisted by save_to_mongodb (embedding.py line
210): the combined metadata extended with the chunk index and the
document id. -/
def mongoChunkMetadata (pyhash : String → Int) (metadata : Dict) (i : Nat) : Dict :=
  let docId := saveDocId pyhash metadata
  dictInsert (dictInsert metadata "chunk_index" (toString i)) "document_id" docId

/-- Processed metadata a document carries when it leaves the chunk
stage, composed from the extract job through extract_metadata and
chunk_document: this is both the staging file metadata and the embed
job metadata. -/
def pipelineProcessedMetadata (job : ExtractJob) (doc : DoclingDoc)
    (extraction_date : String) (file_size : Nat)
    (chunksCount : Nat) (chunkingTimestamp chunkingTime : String) : Dict :=
  chunkProcessedMetadata
    (extractMetadata doc.meta job.file_path job.trace_id extraction_date file_size)
    job.file_path chunksCount chunkingTimestamp chunkingTime

/-- Metadata of the vector store record persisted for chunk i of a
document, composed along the whole pipeline from the extract job: the
extract metadata, the chunk stage metadata, the load and merge in the
embed worker, and the per-chunk extension in save_to_mongodb. -/
def vectorRecordMetadata (job : ExtractJob) (doc : DoclingDoc)
    (extraction_date : String) (file_size : Nat)
    (chunksCount : Nat) (chunkingTimestamp chunkingTime : String)
    (modelName : String) (pyhash : String → Int) (i : Nat) : Dict :=
  mongoChunkMetadata pyhash
    (embedCombinedMetadata
      (loadChunksMetadata
        (pipelineProcessedMetadata job doc extraction_date file_size
          chunksCount chunkingTimestamp chunkingTime)
        (stagingPath job.file_path))
      (pipelineProcessedMetadata job doc extraction_date file_size
        chunksCount chunkingTimestamp chunkingTime)
      modelName) i

/-! Supervisor model, from run_platform.py.  The monitor loop polls the
child table; an exited redis entry is skipped, every other exited entry
is removed and restarted with the same name, worker id and command.  A
restarted entry is recorded in the second component. -/

/-- One entry of the supervisor child table. -/
structure ProcInfo where
  name : String
  worker_id : Option String
  command : String
  exited : Bool
  exit_code : Int
deriving Repr, DecidableEq

/-- Respawn of a child by start_component: same name, worker id and
command, fresh process. -/
def restartProc (p : ProcInfo) : ProcInfo :=
  { p with exited := false, exit_code := 0 }

/-- One pass over the child table in BackendPipeline.monitor
(run_platform.py lines 229 to 257): exited redis stays and is never
restarted; every other exited child is replaced by a restart with the
same identity, regardless of its exit code.  Returns the new table and
the list of restarted children. -/
def monitorPass : List ProcInfo → List ProcInfo × List ProcInfo
  | [] => ([], [])
  | p :: rest =>
    let (ps, rs) := monitorPass rest
    if p.exited then
      if p.name == "redis" then (p :: ps, rs)
      else (restartProc p :: ps, restartProc p :: rs)
    else (p :: ps, rs)

/-- Embedding of one iteration of BackendPipeline.monitor: the body runs
only while the running flag holds (run_platform.py line 228); after
shutdown flips the flag nothing is polled and nothing is restarted. -/
def monitorStep (running : Bool) (procs : List ProcInfo) :
    List ProcInfo × List ProcInfo :=
  if running then monitorPass procs else (procs, [])

/-! Concrete scenario data used by closed theorems and witnesses. -/

/-- Extraction job for a file whose conversion will return no document. -/
def c2job : ExtractJob :=
  { trace_id := some "t9",
    file_path := "data/master_library/bad.pdf",
    filename := "bad.pdf" }

/-- Converter document with no exposed metadata, for scenario runs. -/
def c4doc : DoclingDoc := { meta := [], json_repr := "docjson", markdown := "md" }

/-- Extraction job carried by the second dispatch of a re-scanned file,
with the fresh trace id t2. -/
def c4job2 : ExtractJob :=
  { trace_id := some "t2",
    file_path := "data/master_library/a.pdf",
    filename := "a.pdf" }

/-- Status store after the first dispatch of a.pdf registered it with
trace id t1. -/
def c4s0 : List DocumentRecord :=
  (addDocument [] "a.pdf" "data/master_library/a.pdf" "queued" (some "t1") "T0").1

/-- Status store after the first extraction attempt started processing. -/
def c4s1 : List DocumentRecord :=
  (updateDocumentStatus c4s0 "data/master_library/a.pdf" "processing" none "T1").1

/-- Status store after the first extraction attempt failed with a null
document. -/
def c4s2 : List DocumentRecord :=
  (updateDocumentStatus c4s1 "data/master_library/a.pdf" "error"
    (some "Failed to convert document - no document returned") "T2").1

/-- Status store after the manager re-dispatched a.pdf with the fresh
trace id t2: the duplicate insert is ignored. -/
def c4s3 : List DocumentRecord :=
  (addDocument c4s2 "a.pdf" "data/master_library/a.pdf" "queued" (some "t2") "T3").1

/-- Status store after the second extraction attempt completed: the
document is processed, and its record still carries trace id t1. -/
def c4s4 : List DocumentRecord :=
  (updateDocumentStatus c4s3 "data/master_library/a.pdf" "processed" none "T4").1

/-- Status store record that went to error with a recorded message,
input of the update counterexample. -/
def c9rec : DocumentRecord :=
  { filename := "a.pdf", filepath := "data/master_library/a.pdf",
    status := "error", trace_id := some "t1",
    error_message := some "boom", processed_date := some "T2",
    created_date := "T0" }

/-- Supervisor table entry of a crashed extraction worker. -/
def procExtractWorker : ProcInfo :=
  { name := "extraction-worker", worker_id := some "extraction-worker-1",
    command := "python3 document_ingestion_platform/ingest_tools/extraction.py --worker-id extraction-worker-1",
    exited := true, exit_code := 1 }

/-- Supervisor table entry of the manager after a clean exit. -/
def procManagerClean : ProcInfo :=
  { name := "extraction-manager", worker_id := none,
    command := "python3 document_ingestion_platform/ingest_tools/extraction_manager.py --scan-interval 30 --lock-ttl 300",
    exited := true, exit_code := 0 }

/-- Supervisor table entry of an exited redis broker. -/
def procRedis : ProcInfo :=
  { name := "redis", worker_id := none, command := "redis-server",
    exited := true, exit_code := 1 }

/-- Keys of a metadata dictionary, in insertion order. -/
def dictKeys (d : Dict) : List String := d.map Prod.fst

/-- Scan state holding one record in error status, an empty lock
namespace, and an empty extraction queue. -/
def c3state : ScanState :=
  { store := [{ filename := "a.pdf", filepath := "data/master_library/a.pdf",
                status := "error", trace_id := some "t1",
                error_message := some "conv failed", processed_date := some "T2",
                created_date := "T0" }],
    locks := [], queue := [] }

/-- Record c9rec after an update to processing with no error message. -/
def c9recUpdated : DocumentRecord :=
  { c9rec with status := "processing", processed_date := some "T6" }

/-! Helper lemmas about the dict model. -/

theorem dictInsert_ne_nil (d : Dict) (k v : String) : dictInsert d k v ≠ [] := by
  cases d with
  | nil => simp [dictInsert]
  | cons p rest =>
    simp only [dictInsert]
    split <;> simp

theorem dictLookup_dictInsert_self (d : Dict) (k v : String) :
    dictLookup (dictInsert d k v) k = some v := by
  induction d with
  | nil => simp [dictInsert, dictLookup, List.find?]
  | cons p rest ih =>
    by_cases hp : (p.1 == k) = true
    · simp [dictInsert, hp, dictLookup, List.find?]
    · simp only [dictInsert, hp, Bool.false_eq_true, if_false]
      simp only [dictLookup, List.find?, hp] at ih ⊢
      exact ih

theorem dictLookup_dictInsert_ne (d : Dict) (k v k2 : String) (h : k2 ≠ k) :
    dictLookup (dictInsert d k v) k2 = dictLookup d k2 := by
  have hk : (k == k2) = false := beq_eq_false_iff_ne.mpr (Ne.symm h)
  induction d with
  | nil => simp [dictInsert, dictLookup, List.find?, hk]
  | cons p rest ih =>
    by_cases hp : (p.1 == k) = true
    · have hpk : p.1 = k := by simpa using hp
      have hp2 : (p.1 == k2) = false := by
        rw [hpk]; exact hk
      simp [dictInsert, hp, dictLookup, List.find?, hk, hp2]
    · simp only [dictInsert, hp, Bool.false_eq_true, if_false]
      by_cases hq : (p.1 == k2) = true
      · simp [dictLookup, List.find?, hq]
      · simp only [dictLookup, List.find?, hq] at ih ⊢
        exact ih

theorem mem_dictKeys_dictInsert (d : Dict) (k v x : String) :
    x ∈ dictKeys (dictInsert d k v) ↔ x = k ∨ x ∈ dictKeys d := by
  induction d with
  | nil => simp [dictInsert, dictKeys]
  | cons p rest ih =>
    by_cases hp : (p.1 == k) = true
    · have hpk : p.1 = k := by simpa using hp
      simp [dictInsert, hp, dictKeys, hpk]
    · simp only [dictInsert, hp, Bool.false_eq_true, if_false]
      simp only [dictKeys, List.map_cons, List.mem_cons] at ih ⊢
      rw [ih]
      tauto

theorem nodup_dictKeys_dictInsert (d : Dict) (k v : String)
    (h : (dictKeys d).Nodup) : (dictKeys (dictInsert d k v)).Nodup := by
  induction d with
  | nil => simp [dictInsert, dictKeys]
  | cons p rest ih =>
    simp only [dictKeys, List.map_cons, List.nodup_cons] at h
    by_cases hp : (p.1 == k) = true
    · have hpk : p.1 = k := by simpa using hp
      simp only [dictInsert, hp, if_true, dictKeys, List.map_cons, List.nodup_cons]
      exact ⟨hpk ▸ h.1, h.2⟩
    · have hpk : p.1 ≠ k := by simpa using hp
      simp only [dictInsert, hp, Bool.false_eq_true, if_false, dictKeys,
        List.map_cons, List.nodup_cons]
      constructor
      · intro hmem
        rcases (mem_dictKeys_dictInsert rest k v p.1).1 hmem with h1 | h1
        · exact hpk h1
        · exact h.1 h1
      · exact ih h.2

theorem dictLookup_eq_none (d : Dict) (k : String) (h : k ∉ dictKeys d) :
    dictLookup d k = none := by
  induction d with
  | nil => rfl
  | cons p rest ih =>
    simp only [dictKeys, List.map_cons, List.mem_cons] at h
    push_neg at h
    have hp : (p.1 == k) = false := beq_eq_false_iff_ne.mpr (Ne.symm h.1)
    simp only [dictLookup, List.find?, hp]
    exact ih h.2

theorem dictMerge_cons (a : Dict) (p : String × String) (b : Dict) :
    dictMerge a (p :: b) = dictMerge (dictInsert a p.1 p.2) b := rfl

theorem dictLookup_dictMerge_of_none (a b : Dict) (k : String)
    (h : dictLookup b k = none) :
    dictLookup (dictMerge a b) k = dictLookup a k := by
  induction b generalizing a with
  | nil => rfl
  | cons p bs ih =>
    by_cases hp : (p.1 == k) = true
    · simp [dictLookup, List.find?, hp] at h
    · have h2 : dictLookup bs k = none := by
        simpa only [dictLookup, List.find?, hp] using h
      rw [dictMerge_cons, ih _ h2]
      exact dictLookup_dictInsert_ne a p.1 p.2 k
        (Ne.symm (beq_eq_false_iff_ne.mp (Bool.not_eq_true _ ▸ hp)))

theorem dictLookup_dictMerge_of_nodup (a b : Dict) (k v : String)
    (hnd : (dictKeys b).Nodup) (h : dictLookup b k = some v) :
    dictLookup (dictMerge a b) k = some v := by
  induction b generalizing a with
  | nil => simp [dictLookup, List.find?] at h
  | cons p bs ih =>
    simp only [dictKeys, List.map_cons, List.nodup_cons] at hnd
    rw [dictMerge_cons]
    by_cases hp : (p.1 == k) = true
    · have hpk : p.1 = k := by simpa using hp
      have hv : p.2 = v := by
        simpa [dictLookup, List.find?, hp] using h
      have hnone : dictLookup bs k = none :=
        dictLookup_eq_none bs k (hpk ▸ hnd.1)
      rw [dictLookup_dictMerge_of_none _ _ _ hnone]
      rw [← hpk, ← hv]
      exact dictLookup_dictInsert_self a p.1 p.2
    · have h2 : dictLookup bs k = some v := by
        simpa only [dictLookup, List.find?, hp] using h
      exact ih (dictInsert a p.1 p.2) hnd.2 h2

theorem dictLookup_copyDocMetaAux (dm : Dict) (ks : List String) (m : Dict)
    (k : String) (h : k ∉ ks) :
    dictLookup (copyDocMetaAux dm ks m) k = dictLookup m k := by
  induction ks generalizing m with
  | nil => rfl
  | cons k1 ks1 ih =>
    simp only [List.mem_cons] at h
    push_neg at h
    simp only [copyDocMetaAux]
    cases hdm : dictLookup dm k1 with
    | none => exact ih _ h.2
    | some v =>
      rw [ih _ h.2]
      exact dictLookup_dictInsert_ne m k1 v k h.1

theorem nodup_dictKeys_copyDocMetaAux (dm : Dict) (ks : List String) (m : Dict)
    (h : (dictKeys m).Nodup) : (dictKeys (copyDocMetaAux dm ks m)).Nodup := by
  induction ks generalizing m with
  | nil => exact h
  | cons k1 ks1 ih =>
    simp only [copyDocMetaAux]
    cases hdm : dictLookup dm k1 with
    | none => exact ih _ h
    | some v => exact ih _ (nodup_dictKeys_dictInsert m k1 v h)

theorem copyDocMetaAux_ne_nil (dm : Dict) (ks : List String) (m : Dict)
    (h : m ≠ []) : copyDocMetaAux dm ks m ≠ [] := by
  induction ks generalizing m with
  | nil => exact h
  | cons k1 ks1 ih =>
    simp only [copyDocMetaAux]
    cases hdm : dictLookup dm k1 with
    | none => exact ih _ h
    | some v => exact ih _ (dictInsert_ne_nil m k1 v)

theorem dictHas_eq_true_of_lookup (d : Dict) (k v : String)
    (h : dictLookup d k = some v) : dictHas d k = true := by
  induction d with
  | nil => simp [dictLookup, List.find?] at h
  | cons p rest ih =>
    by_cases hp : (p.1 == k) = true
    · simp [dictHas, hp]
    · simp only [dictLookup, List.find?, hp] at h
      have := ih h
      simp only [dictHas, List.any_cons] at this ⊢
      simp [this]

/-! Lemmas about the metadata built by the extract worker. -/

theorem addTrace_lookup_trace (m : Dict) (t : String) (ht : t ≠ "") :
    dictLookup (addTrace m (some t)) "trace_id" = some t := by
  have hbt : (t != "") = true := by simpa using ht
  simp only [addTrace, hbt, if_true]
  exact dictLookup_dictInsert_self _ _ _

theorem addTrace_lookup_ne (m : Dict) (tr : Option String) (k : String)
    (h : k ≠ "trace_id") :
    dictLookup (addTrace m tr) k = dictLookup m k := by
  cases tr with
  | none => rfl
  | some t =>
    simp only [addTrace]
    split
    · exact dictLookup_dictInsert_ne _ _ _ _ h
    · rfl

theorem addTrace_nodup (m : Dict) (tr : Option String)
    (h : (dictKeys m).Nodup) : (dictKeys (addTrace m tr)).Nodup := by
  cases tr with
  | none => exact h
  | some t =>
    simp only [addTrace]
    split
    · exact nodup_dictKeys_dictInsert _ _ _ h
    · exact h

theorem addTrace_ne_nil (m : Dict) (tr : Option String) (h : m ≠ []) :
    addTrace m tr ≠ [] := by
  cases tr with
  | none => exact h
  | some t =>
    simp only [addTrace]
    split
    · exact dictInsert_ne_nil _ _ _
    · exact h

theorem titleFallback_lookup_ne (m : Dict) (fp k : String) (h : k ≠ "title") :
    dictLookup (titleFallback m fp) k = dictLookup m k := by
  simp only [titleFallback]
  split
  · exact dictLookup_dictInsert_ne _ _ _ _ h
  · rfl

theorem titleFallback_nodup (m : Dict) (fp : String)
    (h : (dictKeys m).Nodup) : (dictKeys (titleFallback m fp)).Nodup := by
  simp only [titleFallback]
  split
  · exact nodup_dictKeys_dictInsert _ _ _ h
  · exact h

theorem titleFallback_ne_nil (m : Dict) (fp : String) (h : m ≠ []) :
    titleFallback m fp ≠ [] := by
  simp only [titleFallback]
  split
  · exact dictInsert_ne_nil _ _ _
  · exact h

theorem extractMetadataBase_lookup_filepath (fp ed : String) (n : Nat) :
    dictLookup (extractMetadataBase fp ed n) "file_path" = some fp := by
  simp [extractMetadataBase, dictLookup, List.find?]

theorem extractMetadataBase_nodup (fp ed : String) (n : Nat) :
    (dictKeys (extractMetadataBase fp ed n)).Nodup := by
  simp only [extractMetadataBase, dictKeys, List.map_cons, List.map_nil]
  decide

theorem extractMetadata_lookup_trace (dm : Dict) (fp ed : String) (n : Nat)
    (t : String) (ht : t ≠ "") :
    dictLookup (extractMetadata dm fp (some t) ed n) "trace_id" = some t := by
  unfold extractMetadata copyDocMeta
  rw [titleFallback_lookup_ne _ _ _ (by decide)]
  rw [dictLookup_copyDocMetaAux _ _ _ _ (by decide)]
  exact addTrace_lookup_trace _ _ ht

theorem extractMetadata_lookup_filepath (dm : Dict) (fp ed : String) (n : Nat)
    (tr : Option String) :
    dictLookup (extractMetadata dm fp tr ed n) "file_path" = some fp := by
  unfold extractMetadata copyDocMeta
  rw [titleFallback_lookup_ne _ _ _ (by decide)]
  rw [dictLookup_copyDocMetaAux _ _ _ _ (by decide)]
  rw [addTrace_lookup_ne _ _ _ (by decide)]
  exact extractMetadataBase_lookup_filepath fp ed n

theorem extractMetadata_nodup (dm : Dict) (fp ed : String) (n : Nat)
    (tr : Option String) :
    (dictKeys (extractMetadata dm fp tr ed n)).Nodup := by
  unfold extractMetadata copyDocMeta
  exact titleFallback_nodup _ _
    (nodup_dictKeys_copyDocMetaAux _ _ _
      (addTrace_nodup _ _ (extractMetadataBase_nodup fp ed n)))

theorem extractMetadata_ne_nil (dm : Dict) (fp ed : String) (n : Nat)
    (tr : Option String) : extractMetadata dm fp tr ed n ≠ [] := by
  unfold extractMetadata copyDocMeta
  exact titleFallback_ne_nil _ _
    (copyDocMetaAux_ne_nil _ _ _
      (addTrace_ne_nil _ _ (by simp [extractMetadataBase])))

/-! Lemmas about the metadata carried through the chunk stage. -/

theorem chunkProcessedMetadata_of_ne_nil (md : Dict) (fp : String) (c : Nat)
    (ts ct : String) (h : md ≠ []) :
    chunkProcessedMetadata md fp c ts ct =
      dictInsert (dictInsert (dictInsert md "chunks_count" (toString c))
        "chunking_timestamp" ts) "chunking_time" ct := by
  cases md with
  | nil => exact absurd rfl h
  | cons p rest => rfl

theorem chunkProcessedMetadata_lookup_of_ne (md : Dict) (fp : String) (c : Nat)
    (ts ct k : String) (h : md ≠ [])
    (h1 : k ≠ "chunks_count") (h2 : k ≠ "chunking_timestamp")
    (h3 : k ≠ "chunking_time") :
    dictLookup (chunkProcessedMetadata md fp c ts ct) k = dictLookup md k := by
  rw [chunkProcessedMetadata_of_ne_nil md fp c ts ct h]
  rw [dictLookup_dictInsert_ne _ _ _ _ h3]
  rw [dictLookup_dictInsert_ne _ _ _ _ h2]
  exact dictLookup_dictInsert_ne _ _ _ _ h1

theorem chunkProcessedMetadata_nodup (md : Dict) (fp : String) (c : Nat)
    (ts ct : String) (h : md ≠ []) (hnd : (dictKeys md).Nodup) :
    (dictKeys (chunkProcessedMetadata md fp c ts ct)).Nodup := by
  rw [chunkProcessedMetadata_of_ne_nil md fp c ts ct h]
  exact nodup_dictKeys_dictInsert _ _ _
    (nodup_dictKeys_dictInsert _ _ _ (nodup_dictKeys_dictInsert _ _ _ hnd))

theorem chunkProcessedMetadata_ne_nil (md : Dict) (fp : String) (c : Nat)
    (ts ct : String) (h : md ≠ []) :
    chunkProcessedMetadata md fp c ts ct ≠ [] := by
  rw [chunkProcessedMetadata_of_ne_nil md fp c ts ct h]
  exact dictInsert_ne_nil _ _ _

/-! Lemmas about the metadata handling of the embed worker. -/

theorem loadChunksMetadata_of_has (fileMeta : Dict) (cf : String)
    (h : dictHas fileMeta "file_path" = true) :
    loadChunksMetadata fileMeta cf = fileMeta := by
  simp [loadChunksMetadata, h]

theorem embedCombinedMetadata_lookup (fileMeta jobMeta : Dict) (mn k v : String)
    (hk : k ≠ "embedding_model")
    (hnd : (dictKeys jobMeta).Nodup)
    (hjm : dictLookup jobMeta k = some v)
    (hne : jobMeta ≠ []) :
    dictLookup (embedCombinedMetadata fileMeta jobMeta mn) k = some v := by
  have hje : jobMeta.isEmpty = false := by
    cases jobMeta with
    | nil => exact absurd rfl hne
    | cons p rest => rfl
  unfold embedCombinedMetadata
  rw [dictLookup_dictInsert_ne _ _ _ _ hk]
  cases hfe : fileMeta.isEmpty with
  | true =>
    simp only [hje, hfe, Bool.not_true, Bool.not_false, Bool.and_false,
      Bool.false_eq_true, if_false, if_true]
    exact hjm
  | false =>
    simp only [hje, hfe, Bool.not_false, Bool.and_self, if_true]
    exact dictLookup_dictMerge_of_nodup fileMeta jobMeta k v hnd hjm

theorem mongoChunkMetadata_lookup_ne (pyhash : String → Int) (md : Dict)
    (i : Nat) (k : String) (h1 : k ≠ "chunk_index") (h2 : k ≠ "document_id") :
    dictLookup (mongoChunkMetadata pyhash md i) k = dictLookup md k := by
  unfold mongoChunkMetadata
  rw [dictLookup_dictInsert_ne _ _ _ _ h2]
  exact dictLookup_dictInsert_ne _ _ _ _ h1

theorem pipelineProcessedMetadata_lookup_trace (job : ExtractJob) (doc : DoclingDoc)
    (ed : String) (n c : Nat) (ts ct : String) (t : String)
    (hjt : job.trace_id = some t) (ht : t ≠ "") :
    dictLookup (pipelineProcessedMetadata job doc ed n c ts ct) "trace_id" = some t := by
  unfold pipelineProcessedMetadata
  rw [chunkProcessedMetadata_lookup_of_ne _ _ _ _ _ _
    (extractMetadata_ne_nil _ _ _ _ _) (by decide) (by decide) (by decide)]
  rw [hjt]
  exact extractMetadata_lookup_trace _ _ _ _ _ ht

theorem pipelineProcessedMetadata_lookup_filepath (job : ExtractJob) (doc : DoclingDoc)
    (ed : String) (n c : Nat) (ts ct : String) :
    dictLookup (pipelineProcessedMetadata job doc ed n c ts ct) "file_path" =
      some job.file_path := by
  unfold pipelineProcessedMetadata
  rw [chunkProcessedMetadata_lookup_of_ne _ _ _ _ _ _
    (extractMetadata_ne_nil _ _ _ _ _) (by decide) (by decide) (by decide)]
  exact extractMetadata_lookup_filepath _ _ _ _ _

theorem vectorRecordMetadata_lookup_trace (job : ExtractJob) (doc : DoclingDoc)
    (ed : String) (n c : Nat) (ts ct mn : String) (pyhash : String → Int)
    (i : Nat) (t : String) (hjt : job.trace_id = some t) (ht : t ≠ "") :
    dictLookup (vectorRecordMetadata job doc ed n c ts ct mn pyhash i) "trace_id" =
      some t := by
  have hpm_tr := pipelineProcessedMetadata_lookup_trace job doc ed n c ts ct t hjt ht
  have hpm_fp := pipelineProcessedMetadata_lookup_filepath job doc ed n c ts ct
  have hpm_nd : (dictKeys (pipelineProcessedMetadata job doc ed n c ts ct)).Nodup := by
    unfold pipelineProcessedMetadata
    exact chunkProcessedMetadata_nodup _ _ _ _ _
      (extractMetadata_ne_nil _ _ _ _ _) (extractMetadata_nodup _ _ _ _ _)
  have hpm_ne : pipelineProcessedMetadata job doc ed n c ts ct ≠ [] := by
    unfold pipelineProcessedMetadata
    exact chunkProcessedMetadata_ne_nil _ _ _ _ _ (extractMetadata_ne_nil _ _ _ _ _)
  unfold vectorRecordMetadata
  rw [loadChunksMetadata_of_has _ _ (dictHas_eq_true_of_lookup _ _ _ hpm_fp)]
  rw [mongoChunkMetadata_lookup_ne _ _ _ _ (by decide) (by decide)]
  exact embedCombinedMetadata_lookup _ _ _ _ _ (by decide) hpm_nd hpm_tr hpm_ne

/-! Lemmas about the supervisor monitor pass. -/

theorem monitorPass_restart_sound (procs : List ProcInfo) (p : ProcInfo)
    (h : p ∈ (monitorPass procs).2) :
    p.name ≠ "redis" ∧ ∃ q, q ∈ procs ∧ q.exited = true ∧ restartProc q = p := by
  induction procs with
  | nil => simp [monitorPass] at h
  | cons q rest ih =>
    rcases hmp : monitorPass rest with ⟨ps, rs⟩
    have hin : p ∈ rs → p.name ≠ "redis" ∧
        ∃ q2, q2 ∈ rest ∧ q2.exited = true ∧ restartProc q2 = p := by
      intro hp
      exact ih (by rw [hmp]; exact hp)
    simp only [monitorPass, hmp] at h
    by_cases hex : q.exited = true
    · by_cases hred : (q.name == "redis") = true
      · simp only [hex, hred, if_true] at h
        obtain ⟨hn, q2, hq2, hq2e, hq2r⟩ := hin h
        exact ⟨hn, q2, List.mem_cons_of_mem _ hq2, hq2e, hq2r⟩
      · have hred2 : (q.name == "redis") = false := by simpa using hred
        simp only [hex, hred2, Bool.false_eq_true, if_true, if_false] at h
        rcases List.mem_cons.mp h with h1 | h1
        · subst h1
          refine ⟨?_, q, List.mem_cons_self _ _, hex, rfl⟩
          have : q.name ≠ "redis" := by simpa using hred2
          simpa [restartProc] using this
        · obtain ⟨hn, q2, hq2, hq2e, hq2r⟩ := hin h1
          exact ⟨hn, q2, List.mem_cons_of_mem _ hq2, hq2e, hq2r⟩
    · have hex2 : q.exited = false := by simpa using hex
      simp only [hex2, Bool.false_eq_true, if_false] at h
      obtain ⟨hn, q2, hq2, hq2e, hq2r⟩ := hin h
      exact ⟨hn, q2, List.mem_cons_of_mem _ hq2, hq2e, hq2r⟩

theorem monitorPass_restart_complete (procs : List ProcInfo) (q : ProcInfo)
    (hq : q ∈ procs) (hex : q.exited = true) (hred : (q.name == "redis") = false) :
    restartProc q ∈ (monitorPass procs).2 := by
  induction procs with
  | nil => simp at hq
  | cons r rest ih =>
    rcases hmp : monitorPass rest with ⟨ps, rs⟩
    rcases List.mem_cons.mp hq with h1 | h1
    · subst h1
      simp [monitorPass, hmp, hex, hred]
    · have hmem : restartProc q ∈ rs := by
        have := ih h1
        rw [hmp] at this
        exact this
      simp only [monitorPass, hmp]
      by_cases hre : r.exited = true
      · by_cases hrr : (r.name == "redis") = true
        · simp only [hre, hrr, if_true]
          exact hmem
        · have hrr2 : (r.name == "redis") = false := by simpa using hrr
          simp only [hre, hrr2, Bool.false_eq_true, if_true, if_false]
          exact List.mem_cons_of_mem _ hmem
      · have hre2 : r.exited = false := by simpa using hre
        simp only [hre2, Bool.false_eq_true, if_false]
        exact hmem

/-! Claim theorems. -/

/-- C1: the claim states FIFO delivery to a single consumer of the
extraction queue, with the push appending to the tail and the blocking
pop removing from the opposite end.  The manager pushes with RPUSH and
the worker loop pops with BRPOP, which removes from the same end RPUSH
appends to: after jobA is pushed before jobB, the single consumer
receives jobB first.  BLPOP, which the worker docstring names, would
have returned jobA.  This theorem evaluates the queue model at that
failing input. -/
theorem C1_rpush_brpop_same_end :
    brpop (rpush (rpush ([] : List String) "jobA") "jobB") = some ("jobB", ["jobA"]) ∧
    blpop (rpush (rpush ([] : List String) "jobA") "jobB") = some ("jobA", ["jobB"]) :=
  ⟨rfl, rfl⟩

/-- C2: for an extraction job whose conversion returns no document, the
worker sets the status to processing then to error and returns; the
effect trace contains no lockDelete and no queuePush, so the claim lock
is not released (it can only expire by TTL) and no chunk job is emitted,
while the claim says the worker releases the lock.  This theorem
evaluates the worker at that failing input. -/
theorem C2_no_document_keeps_lock :
    processExtractionJob c2job ConvResult.noDocument "D1" 0 "w1" 0 =
      ([Effect.dbUpdate "data/master_library/bad.pdf" "processing" none,
        Effect.dbUpdate "data/master_library/bad.pdf" "error"
          (some "Failed to convert document - no document returned")], false) ∧
    ((processExtractionJob c2job ConvResult.noDocument "D1" 0 "w1" 0).1.all
      (fun e => match e with
        | Effect.lockDelete _ => false
        | Effect.queuePush _ _ => false
        | Effect.dbUpdate _ _ _ => true)) = true :=
  ⟨rfl, rfl⟩

/-- C5: the derived document id depends on the per-process Python string
hash, which CPython salts with a per-process secret: two embed runs in
processes with different hash functions derive different document ids
and disjoint vector store key sets for the same unchanged file, so the
second run does not overwrite the first as the claim states.  This
theorem evaluates the derivation under two process hash functions. -/
theorem C5_docid_not_stable_across_processes :
    deriveDocId (fun _ => (0 : Int)) "data/master_library/a.pdf" = "doc_0000000" ∧
    deriveDocId (fun _ => (1 : Int)) "data/master_library/a.pdf" = "doc_0000001" ∧
    saveToMongodbKeys (fun _ => (0 : Int))
      [("file_path", "data/master_library/a.pdf")] 2 =
      ["doc_0000000_0", "doc_0000000_1"] ∧
    saveToMongodbKeys (fun _ => (1 : Int))
      [("file_path", "data/master_library/a.pdf")] 2 =
      ["doc_0000001_0", "doc_0000001_1"] ∧
    saveToMongodbKeys (fun _ => (0 : Int))
      [("file_path", "data/master_library/a.pdf")] 2 ≠
    saveToMongodbKeys (fun _ => (1 : Int))
      [("file_path", "data/master_library/a.pdf")] 2 :=
  ⟨rfl, rfl, rfl, rfl, by decide⟩

/-- C8: on the success path of the extract worker the effect trace is
exactly the initial processing update followed by the chunk job push to
the chunk queue, then the status update to processed, then the deletion
of the claim lock: the three claimed effects occur in exactly the
claimed order after the conversion succeeds. -/
theorem C8_success_path_effect_order (job : ExtractJob) (doc : DoclingDoc)
    (ed : String) (n : Nat) (w : String) (ts : Nat) :
    processExtractionJob job (ConvResult.ok doc) ed n w ts =
      ([Effect.dbUpdate job.file_path "processing" none,
        Effect.queuePush REDIS_QUEUE (buildChunkPayload job doc ed n w ts),
        Effect.dbUpdate job.file_path "processed" none,
        Effect.lockDelete ("lock:extraction:" ++ job.filename)], true) :=
  rfl

/-- C10: updating the status of a filepath for which the store has no
record returns true and leaves the store unchanged: the transition is
silently lost. -/
theorem C10_update_unregistered_silent (store : List DocumentRecord)
    (fp st : String) (em : Option String) (now : String)
    (h : getDocumentStatus store fp = none) :
    updateDocumentStatus store fp st em now = (store, true) := by
  have hfind : store.find? (fun r => r.filepath == fp) = none := by
    cases hf : store.find? (fun r => r.filepath == fp) with
    | none => rfl
    | some r => simp [getDocumentStatus, hf] at h
  have hall : ∀ r ∈ store, (r.filepath == fp) = false := by
    intro r hr
    simpa using List.find?_eq_none.mp hfind r hr
  simp only [updateDocumentStatus, Prod.mk.injEq, and_true]
  conv_rhs => rw [← List.map_id store]
  apply List.map_congr_left
  intro r hr
  simp [hall r hr]

/-- Witness for C10 at a store holding one record for another file. -/
theorem C10_update_unregistered_silent_witness :
    updateDocumentStatus [c9rec] "nope.pdf" "processed" none "T7" = ([c9rec], true) :=
  C10_update_unregistered_silent [c9rec] "nope.pdf" "processed" none "T7" (by rfl)

/-- C3 counterexample: with a status record in error and no lock, one
scan iteration over the file takes the claim and pushes an extraction
job, so the manager does dispatch files whose get_status result is
error, contrary to the claim. -/
theorem C3_error_file_redispatched :
    getDocumentStatus c3state.store "data/master_library/a.pdf" = some "error" ∧
    (scanFile c3state "a.pdf" "t2" "extraction-manager" "T3").2 = true ∧
    (scanFile c3state "a.pdf" "t2" "extraction-manager" "T3").1.queue =
      [{ trace_id := some "t2", file_path := "data/master_library/a.pdf",
         filename := "a.pdf" }] ∧
    (scanFile c3state "a.pdf" "t2" "extraction-manager" "T3").1.locks =
      [("lock:extraction:a.pdf", "extraction-manager")] :=
  ⟨rfl, rfl, rfl, rfl⟩

/-- C3 amended: a scan iteration dispatches exactly when the name ends
in pdf, the stored status is neither processed nor processing, and no
lock exists; in particular a file whose get_status result is error is
claimed and dispatched. -/
theorem C3_amended_error_does_not_gate :
    (∀ (st : ScanState) (fn tr m now : String),
      (scanFile st fn tr m now).2 =
        (pyEndsWith fn ".pdf" &&
         !isFileProcessed st.store (MASTER_LIBRARY ++ "/" ++ fn) &&
         !isFileLocked st.locks fn)) ∧
    (∀ (st : ScanState) (fn tr m now : String),
      getDocumentStatus st.store (MASTER_LIBRARY ++ "/" ++ fn) = some "error" →
      pyEndsWith fn ".pdf" = true → isFileLocked st.locks fn = false →
      (scanFile st fn tr m now).2 = true) := by
  have main : ∀ (st : ScanState) (fn tr m now : String),
      (scanFile st fn tr m now).2 =
        (pyEndsWith fn ".pdf" &&
         !isFileProcessed st.store (MASTER_LIBRARY ++ "/" ++ fn) &&
         !isFileLocked st.locks fn) := by
    intro st fn tr m now
    by_cases hpdf : pyEndsWith fn ".pdf" = true
    · by_cases hproc : isFileProcessed st.store (MASTER_LIBRARY ++ "/" ++ fn) = true
      · simp [scanFile, hpdf, hproc]
      · have hproc2 : isFileProcessed st.store (MASTER_LIBRARY ++ "/" ++ fn) = false := by
          simpa using hproc
        by_cases hlock : isFileLocked st.locks fn = true
        · simp [scanFile, hpdf, hproc2, hlock]
        · have hlock2 : isFileLocked st.locks fn = false := by simpa using hlock
          have hany : (st.locks.any (fun p => p.1 == "lock:extraction:" ++ fn)) = false := by
            simpa [isFileLocked] using hlock2
          simp [scanFile, hpdf, hproc2, hlock2, claimFile, hany]
    · have hpdf2 : pyEndsWith fn ".pdf" = false := by simpa using hpdf
      simp [scanFile, hpdf2]
  refine ⟨main, ?_⟩
  intro st fn tr m now herr hpdf hlock
  rw [main]
  have hproc : isFileProcessed st.store (MASTER_LIBRARY ++ "/" ++ fn) = false := by
    simp only [isFileProcessed, herr]
    decide
  simp [hpdf, hproc, hlock]

/-- Witness for C3 amended at the concrete error-state scan. -/
theorem C3_amended_witness :
    (scanFile c3state "a.pdf" "t2" "extraction-manager" "T3").2 =
      (pyEndsWith "a.pdf" ".pdf" &&
       !isFileProcessed c3state.store (MASTER_LIBRARY ++ "/" ++ "a.pdf") &&
       !isFileLocked c3state.locks "a.pdf") ∧
    (scanFile c3state "a.pdf" "t2" "extraction-manager" "T3").2 = true :=
  ⟨C3_amended_error_does_not_gate.1 c3state "a.pdf" "t2" "extraction-manager" "T3",
   C3_amended_error_does_not_gate.2 c3state "a.pdf" "t2" "extraction-manager" "T3"
     (by rfl) (by rfl) (by rfl)⟩

/-- C6 counterexample: the documents table constrains filename, not
filepath: two add calls with distinct filenames and the same filepath
leave two records with that filepath in the store, so the store does not
enforce uniqueness on filepath. -/
theorem C6_filepath_not_unique :
    ((addDocument (addDocument [] "a.pdf" "data/master_library/a.pdf" "queued"
        (some "t1") "T0").1
      "b.pdf" "data/master_library/a.pdf" "queued" (some "t2") "T1").1.countP
        (fun r => r.filepath == "data/master_library/a.pdf")) = 2 :=
  rfl

/-- C6 amended: the store enforces uniqueness on filename: an add whose
filename already has a record is a no-op returning true and preserving
every record, including its trace id, and the at-most-one-record-per-
filename invariant is preserved by every add. -/
theorem C6_amended_filename_unique :
    (∀ (store : List DocumentRecord) (fn fp st : String) (tr : Option String)
       (now : String),
      store.any (fun r => r.filename == fn) = true →
      addDocument store fn fp st tr now = (store, true)) ∧
    (∀ (store : List DocumentRecord) (fn fp st : String) (tr : Option String)
       (now fn2 : String),
      store.countP (fun r => r.filename == fn2) ≤ 1 →
      ((addDocument store fn fp st tr now).1.countP (fun r => r.filename == fn2)) ≤ 1) := by
  constructor
  · intro store fn fp st tr now h
    simp [addDocument, h]
  · intro store fn fp st tr now fn2 h
    by_cases hany : store.any (fun r => r.filename == fn) = true
    · simpa [addDocument, hany] using h
    · have hany2 : store.any (fun r => r.filename == fn) = false := by simpa using hany
      simp only [addDocument, hany2, Bool.false_eq_true, if_false]
      rw [List.countP_append]
      by_cases hfn : (fn == fn2) = true
      · have h0 : store.countP (fun r => r.filename == fn2) = 0 := by
          rw [List.countP_eq_zero]
          intro r hr
          have hre : ¬ (r.filename == fn) = true := by
            have hall : ∀ x ∈ store, ¬ (x.filename == fn) = true := by
              simpa [List.any_eq_true] using hany2
            exact hall r hr
          have hfneq : fn = fn2 := by simpa using hfn
          rw [← hfneq]
          exact hre
        rw [h0]
        simp [List.countP_cons, hfn]
      · have hfn2 : (fn == fn2) = false := by simpa using hfn
        have h1 : List.countP (fun r : DocumentRecord => r.filename == fn2)
            ([{ filename := fn, filepath := fp, status := st, trace_id := tr,
                error_message := none, processed_date := none,
                created_date := now }] : List DocumentRecord) = 0 := by
          simp [List.countP_cons, List.countP_nil, hfn2]
        rw [h1]
        simpa using h

/-- Witness for C6 amended at a one-record store and the empty store. -/
theorem C6_amended_witness :
    addDocument c4s0 "a.pdf" "data/master_library/a.pdf" "queued" (some "tX") "T9" =
      (c4s0, true) ∧
    ((addDocument [] "a.pdf" "p" "queued" none "T0").1.countP
      (fun r => r.filename == "a.pdf")) ≤ 1 :=
  ⟨C6_amended_filename_unique.1 c4s0 "a.pdf" "data/master_library/a.pdf" "queued"
      (some "tX") "T9" (by rfl),
   C6_amended_filename_unique.2 [] "a.pdf" "p" "queued" none "T0" "a.pdf" (by decide)⟩

/-- C7: the monitor does nothing once the running flag is down, so a
manager that exits cleanly during shutdown is not restarted; while
running, every restarted child comes from an exited table entry and
keeps its name, worker id and command, no restarted child is the redis
broker, and every exited non-redis child is restarted. -/
theorem C7_supervisor_restart_policy (procs : List ProcInfo) :
    monitorStep false procs = (procs, []) ∧
    (∀ p : ProcInfo, p ∈ (monitorStep true procs).2 → p.name ≠ "redis" ∧
      ∃ q : ProcInfo, q ∈ procs ∧ q.exited = true ∧ q.name = p.name ∧
        q.worker_id = p.worker_id ∧ q.command = p.command) ∧
    (∀ q : ProcInfo, q ∈ procs → q.exited = true → (q.name == "redis") = false →
      restartProc q ∈ (monitorStep true procs).2) := by
  refine ⟨rfl, ?_, ?_⟩
  · intro p hp
    obtain ⟨hn, q, hq, hqe, hqr⟩ := monitorPass_restart_sound procs p hp
    exact ⟨hn, q, hq, hqe, by rw [← hqr]; exact rfl, by rw [← hqr]; exact rfl,
      by rw [← hqr]; exact rfl⟩
  · intro q hq hex hred
    exact monitorPass_restart_complete procs q hq hex hred

/-- Witness for C7 at a table holding an exited redis, a cleanly exited
manager and a crashed extraction worker. -/
theorem C7_supervisor_restart_policy_witness :
    monitorStep false [procRedis, procManagerClean, procExtractWorker] =
      ([procRedis, procManagerClean, procExtractWorker], []) ∧
    ((restartProc procExtractWorker).name ≠ "redis" ∧
      ∃ q : ProcInfo, q ∈ [procRedis, procManagerClean, procExtractWorker] ∧ q.exited = true ∧
        q.name = (restartProc procExtractWorker).name ∧
        q.worker_id = (restartProc procExtractWorker).worker_id ∧
        q.command = (restartProc procExtractWorker).command) ∧
    restartProc procExtractWorker ∈
      (monitorStep true [procRedis, procManagerClean, procExtractWorker]).2 := by
  refine ⟨(C7_supervisor_restart_policy [procRedis, procManagerClean, procExtractWorker]).1,
    (C7_supervisor_restart_policy [procRedis, procManagerClean, procExtractWorker]).2.1
      (restartProc procExtractWorker) (by decide),
    (C7_supervisor_restart_policy [procRedis, procManagerClean, procExtractWorker]).2.2
      procExtractWorker (by decide) (by decide) (by decide)⟩

/-- C9 counterexample: an update to processing without an error message
on a record whose error_message is boom leaves boom in place, while the
claim says the field becomes null when the argument is absent. -/
theorem C9_stale_error_message :
    ((updateDocumentStatus [c9rec] "data/master_library/a.pdf" "processing" none "T6").1.map
      (fun r => r.error_message)) = [some "boom"] ∧
    (some "boom" : Option String) ≠ none :=
  ⟨rfl, by decide⟩

/-- C9 amended: an update returns true and rewrites every record whose
filepath matches, setting the status and processed_date = now, while
filename, filepath, trace_id and created_date are unchanged;
error_message is set to the supplied value only when that value is
truthy and is otherwise left unchanged; records with another filepath
are untouched. -/
theorem C9_update_frame (store : List DocumentRecord) (fp st : String)
    (em : Option String) (now : String) :
    (updateDocumentStatus store fp st em now).2 = true ∧
    (updateDocumentStatus store fp st em now).1.length = store.length ∧
    ∀ (i : Nat) (r r2 : DocumentRecord), store[i]? = some r →
      ((updateDocumentStatus store fp st em now).1)[i]? = some r2 →
      (r2.filename = r.filename ∧ r2.filepath = r.filepath ∧
       r2.trace_id = r.trace_id ∧ r2.created_date = r.created_date) ∧
      (r.filepath = fp →
        r2.status = st ∧ r2.processed_date = some now ∧
        r2.error_message = (if pyTruthy em then em else r.error_message)) ∧
      (r.filepath ≠ fp → r2 = r) := by
  refine ⟨rfl, by simp [updateDocumentStatus], ?_⟩
  intro i r r2 hr hr2
  simp only [updateDocumentStatus, List.getElem?_map, hr, Option.map_some] at hr2
  have hr2e : r2 = (if r.filepath == fp then
      (if pyTruthy em then
        { r with status := st, error_message := em, processed_date := some now }
      else { r with status := st, processed_date := some now })
    else r) := (Option.some_inj.mp hr2).symm
  subst hr2e
  by_cases hfp : r.filepath = fp
  · have hb : (r.filepath == fp) = true := by simpa using hfp
    by_cases htr : pyTruthy em = true
    · simp [hb, htr, hfp]
    · have htr2 : pyTruthy em = false := by simpa using htr
      simp [hb, htr2, hfp]
  · have hb : (r.filepath == fp) = false := by simpa using hfp
    simp [hb, hfp]

/-- C4 counterexample: a file that first errored keeps its original
trace id t1 in the status store, because the re-dispatch registration is
an ignored duplicate insert, while the second extraction job and every
vector record derived from it carry the fresh trace id t2; after the
second attempt completes, the processed status record and the persisted
vector record disagree on the trace id, refuting the claimed equality
for completed documents under re-dispatch. -/
theorem C4_redispatch_trace_mismatch :
    ((c4s4.find? (fun r => r.filepath == "data/master_library/a.pdf")).map
      (fun r => r.trace_id)) = some (some "t1") ∧
    getDocumentStatus c4s4 "data/master_library/a.pdf" = some "processed" ∧
    c4job2.trace_id = some "t2" ∧
    dictLookup (vectorRecordMetadata c4job2 c4doc "D2" 5 1 "TS" "CT"
      "all-mpnet-base-v2" (fun _ => 0) 0) "trace_id" = some "t2" ∧
    (some "t1" : Option String) ≠ some "t2" :=
  ⟨rfl, rfl, rfl, rfl, by decide⟩

/-- C4 amended: the stored trace id never changes, because a duplicate
add is ignored and updates never touch trace_id; within one dispatch the
trace id of the extraction job is carried verbatim into the chunk job,
its metadata, the staging and embed-job metadata, and every persisted
vector record metadata; and on the first registration of a file the
stored trace id equals the dispatched one.  A re-dispatched file thus
produces jobs whose trace id differs from the stored one. -/
theorem C4_trace_immutable_and_propagated :
    (∀ (store : List DocumentRecord) (fn fp st : String) (tr : Option String)
       (now : String),
      store.any (fun r => r.filename == fn) = true →
      (addDocument store fn fp st tr now).1 = store) ∧
    (∀ (store : List DocumentRecord) (fp st : String) (em : Option String)
       (now : String),
      ((updateDocumentStatus store fp st em now).1.map (fun r => r.trace_id)) =
        store.map (fun r => r.trace_id)) ∧
    (∀ (job : ExtractJob) (doc : DoclingDoc) (ed : String) (n : Nat) (w : String)
       (tsn : Nat) (c : Nat) (ts ct mn : String) (pyhash : String → Int) (i : Nat)
       (t : String), job.trace_id = some t → t ≠ "" →
      (buildChunkPayload job doc ed n w tsn).trace_id = t ∧
      dictLookup (buildChunkPayload job doc ed n w tsn).metadata "trace_id" = some t ∧
      dictLookup (pipelineProcessedMetadata job doc ed n c ts ct) "trace_id" = some t ∧
      dictLookup (vectorRecordMetadata job doc ed n c ts ct mn pyhash i) "trace_id" =
        some t) ∧
    (∀ (store : List DocumentRecord) (fn fp st t now : String),
      store.all (fun r => !(r.filename == fn) && !(r.filepath == fp)) = true →
      ((addDocument store fn fp st (some t) now).1.find?
        (fun r => r.filepath == fp)).map (fun r => r.trace_id) = some (some t)) := by
  refine ⟨?_, ?_, ?_, ?_⟩
  · intro store fn fp st tr now h
    simp [addDocument, h]
  · intro store fp st em now
    simp only [updateDocumentStatus, List.map_map]
    apply List.map_congr_left
    intro r hr
    by_cases hfp : r.filepath = fp
    · by_cases htr : pyTruthy em = true
      · simp [hfp, htr]
      · simp [hfp, htr]
    · simp [hfp]
  · intro job doc ed n w tsn c ts ct mn pyhash i t hjt ht
    refine ⟨?_, ?_, ?_, ?_⟩
    · simp [buildChunkPayload, hjt]
    · show dictLookup (extractMetadata doc.meta job.file_path job.trace_id ed n)
        "trace_id" = some t
      rw [hjt]
      exact extractMetadata_lookup_trace _ _ _ _ _ ht
    · exact pipelineProcessedMetadata_lookup_trace job doc ed n c ts ct t hjt ht
    · exact vectorRecordMetadata_lookup_trace job doc ed n c ts ct mn pyhash i t hjt ht
  · intro store fn fp st t now h
    have hpairs : ∀ r ∈ store, (r.filename == fn) = false ∧ (r.filepath == fp) = false := by
      intro r hr
      have hrr := List.all_eq_true.mp h r hr
      constructor
      · cases hcase : (r.filename == fn) with
        | false => rfl
        | true => simp [hcase] at hrr
      · cases hcase : (r.filepath == fp) with
        | false => rfl
        | true => simp [hcase] at hrr
    have hany : store.any (fun r => r.filename == fn) = false := by
      rw [List.any_eq_false]
      intro r hr
      simp [(hpairs r hr).1]
    simp only [addDocument, hany, Bool.false_eq_true, if_false]
    have hfind1 : store.find? (fun r => r.filepath == fp) = none := by
      rw [List.find?_eq_none]
      intro r hr
      simp [(hpairs r hr).2]
    rw [List.find?_append, hfind1]
    simp [List.find?]

/-- Witness for C4 amended: the ignored duplicate insert of the
re-dispatch scenario, trace preservation through a concrete update, the
propagation of trace t2 along the concrete second dispatch, and the
first registration of a fresh store. -/
theorem C4_trace_immutable_and_propagated_witness :
    (addDocument c4s2 "a.pdf" "data/master_library/a.pdf" "queued" (some "t2") "T3").1 =
      c4s2 ∧
    ((updateDocumentStatus c4s3 "data/master_library/a.pdf" "processed" none "T4").1.map
      (fun r => r.trace_id)) = c4s3.map (fun r => r.trace_id) ∧
    (buildChunkPayload c4job2 c4doc "D2" 5 "w1" 7).trace_id = "t2" ∧
    dictLookup (vectorRecordMetadata c4job2 c4doc "D2" 5 1 "TS" "CT"
      "all-mpnet-base-v2" (fun _ => 1) 0) "trace_id" = some "t2" ∧
    ((addDocument [] "a.pdf" "data/master_library/a.pdf" "queued" (some "t1") "T0").1.find?
      (fun r => r.filepath == "data/master_library/a.pdf")).map (fun r => r.trace_id) =
      some (some "t1") := by
  refine ⟨C4_trace_immutable_and_propagated.1 c4s2 "a.pdf" "data/master_library/a.pdf"
      "queued" (some "t2") "T3" (by rfl),
    C4_trace_immutable_and_propagated.2.1 c4s3 "data/master_library/a.pdf" "processed"
      none "T4",
    (C4_trace_immutable_and_propagated.2.2.1 c4job2 c4doc "D2" 5 "w1" 7 1 "TS" "CT"
      "all-mpnet-base-v2" (fun _ => 1) 0 "t2" rfl (by decide)).1,
    (C4_trace_immutable_and_propagated.2.2.1 c4job2 c4doc "D2" 5 "w1" 7 1 "TS" "CT"
      "all-mpnet-base-v2" (fun _ => 1) 0 "t2" rfl (by decide)).2.2.2,
    C4_trace_immutable_and_propagated.2.2.2 [] "a.pdf" "data/master_library/a.pdf"
      "queued" "t1" "T0" (by rfl)⟩

/-- Witness for C9 amended at the one-record store in error state. -/
theorem C9_update_frame_witness :
    c9recUpdated.error_message =
      (if pyTruthy none then none else c9rec.error_message) ∧
    c9recUpdated.status = "processing" ∧
    c9recUpdated.processed_date = some "T6" ∧
    c9recUpdated.trace_id = c9rec.trace_id := by
  have h := (C9_update_frame [c9rec] "data/master_library/a.pdf" "processing" none "T6").2.2
    0 c9rec c9recUpdated rfl rfl
  exact ⟨(h.2.1 rfl).2.2, (h.2.1 rfl).1, (h.2.1 rfl).2.1, h.1.2.2.1⟩

end DIP
